import Mathlib

/-!
Shallow embedding of the `git_release` release-automation script (`main.py`)
and proofs about it.

The script is sequential Python; we model it as follows.

* Pure text manipulation (the version-format regex, `str.strip`, `str.lower`,
  the TOML-style regex substitution of `re.sub`) is translated to executable
  functions on `List Char` / `String`.
* `json.load` / `json.dump` are modelled by an executable JSON value type with
  a recursive-descent parser and an `indent=2` serializer; Python `in`,
  indexing and item assignment on parsed values are modelled with explicit
  `TypeError` / `KeyError` outcomes, mirroring which exceptions each
  handler in the source catches.
* The stateful workflow is modelled by a state monad over a process state
  (project files plus a trace of observable events: prints, git subprocess
  invocations, file writes, one stdin read), with outcomes
  `ok` / `exited code` (`sys.exit`) / `raised msg` (uncaught Python exception).
  The external `git` binary is an environment function from argument vectors
  to `Except stderr stdout`.
-/

set_option maxHeartbeats 1000000

namespace GitRelease

/-! ## Python string primitives -/

/-- Whitespace as used by Python `str.strip()` and the regex class `\s`
(ASCII range, which is all that can occur in the script's inputs of interest). -/
def isPySpace (c : Char) : Bool :=
  c = ' ' || c = '\t' || c = '\n' || c = '\r' || c = '\x0b' || c = '\x0c'

def isAsciiDigit (c : Char) : Bool :=
  '0' ≤ c && c ≤ '9'

/-- Python `str.strip()` on a character list. -/
def stripL (l : List Char) : List Char :=
  ((l.dropWhile isPySpace).reverse.dropWhile isPySpace).reverse

/-- Python `str.strip()`; `run_command` applies this to captured stdout. -/
def pyStrip (s : String) : String :=
  (stripL s.toList).asString

def lowerChar (c : Char) : Char :=
  if 'A' ≤ c && c ≤ 'Z' then Char.ofNat (c.toNat + 32) else c

/-- Python `str.lower()` (ASCII letters). -/
def pyLower (s : String) : String :=
  (s.toList.map lowerChar).asString

/-! ## The version-format check (`re.match(r'^\d+\.\d+\.\d+$', version)`)

Python `re.match` anchors at the start; `$` matches at the end of the string
or just before a single trailing newline, which we reproduce. -/

/-- Consume one-or-more ASCII digits (`\d+`, greedy); `none` if there is no
leading digit, otherwise the remainder. -/
def digitSpan (l : List Char) : Option (List Char) :=
  match l with
  | c :: _ => if isAsciiDigit c then some (l.dropWhile isAsciiDigit) else none
  | [] => none

/-- The script's version validation `re.match(r'^\d+\.\d+\.\d+$', v)` as a
Boolean function. -/
def versionOk (s : String) : Bool :=
  match digitSpan s.toList with
  | none => false
  | some r1 =>
    match r1 with
    | '.' :: r2 =>
      match digitSpan r2 with
      | none => false
      | some r3 =>
        match r3 with
        | '.' :: r4 =>
          match digitSpan r4 with
          | none => false
          | some r5 => r5 = [] || r5 = ['\n']
        | _ => false
    | _ => false

/-! ## The TOML-style regex substitution

`_update_cargo_toml` runs
`re.sub(r'(\[package\]\s*.*?version\s*=\s*")[^"]*(")', replacement, content,
flags=re.DOTALL)`, and `_update_pyproject_toml` the same with
`[tool.poetry]` / `[project]` headers.  We model the match search directly:
a match starts at an occurrence of the header literal; after it, the
engine takes the earliest position at which `version\s*=\s*"` matches and a
closing quote exists (`\s*` then `.*?` are both inside group 1 and the
greedy/lazy split between them does not affect the substitution result);
`[^"]*` takes the characters up to that closing quote (group 2).
`re.sub` replaces every non-overlapping match, continuing after each. -/

def verKw : List Char := ['v', 'e', 'r', 's', 'i', 'o', 'n']

def pkgHdr : List Char := ['[', 'p', 'a', 'c', 'k', 'a', 'g', 'e', ']']

def poetryHdr : List Char :=
  ['[', 't', 'o', 'o', 'l', '.', 'p', 'o', 'e', 't', 'r', 'y', ']']

def projectHdr : List Char :=
  ['[', 'p', 'r', 'o', 'j', 'e', 'c', 't', ']']

/-- Strip a literal prefix, returning the remainder on success. -/
def dropPrefixL : List Char → List Char → Option (List Char)
  | [], l => some l
  | _ :: _, [] => none
  | p :: ps, c :: cs => if c = p then dropPrefixL ps cs else none

/-- Successful head match of `version\s*=\s*"`: the consumed characters and
the remainder (after the opening quote). -/
structure VQ where
  cons : List Char
  rest : List Char
deriving DecidableEq, Repr

/-- Try to match `version\s*=\s*"` at the head of the list. -/
def matchVQ (l : List Char) : Option VQ :=
  match dropPrefixL verKw l with
  | none => none
  | some r1 =>
    let w1 := r1.takeWhile isPySpace
    match r1.dropWhile isPySpace with
    | '=' :: r2 =>
      let w2 := r2.takeWhile isPySpace
      match r2.dropWhile isPySpace with
      | '"' :: r3 => some ⟨verKw ++ w1 ++ '=' :: w2 ++ ['"'], r3⟩
      | _ => none
    | _ => none

/-- Result of scanning for `version\s*=\s*"[^"]*"`: skipped gap, consumed
`version... "` text, the quoted value, and the remainder after the closing
quote. -/
structure VQM where
  gap : List Char
  cons : List Char
  val : List Char
  rest : List Char
deriving DecidableEq, Repr

/-- Scan left-to-right for the first position where `version\s*=\s*"` matches
and a closing quote follows (otherwise the engine extends `.*?` past it). -/
def findVQ : List Char → Option VQM
  | [] => none
  | c :: cs =>
    match matchVQ (c :: cs) with
    | some m =>
      match m.rest.dropWhile (fun d => !(d = '"')) with
      | '"' :: r =>
        some ⟨[], m.cons, m.rest.takeWhile (fun d => !(d = '"')), r⟩
      | _ => (findVQ cs).map fun x => { x with gap := c :: x.gap }
    | none => (findVQ cs).map fun x => { x with gap := c :: x.gap }

/-- A full regex match: text before the match, group 1
(header ++ gap ++ `version... "`), the quoted value, and the remainder after
the closing quote (group 2). -/
structure FM where
  pre : List Char
  grp : List Char
  val : List Char
  rest : List Char
deriving DecidableEq, Repr

/-- Leftmost match of `hdr\s*.*?version\s*=\s*"[^"]*"` (DOTALL). -/
def findMatch (hdr : List Char) : List Char → Option FM
  | [] => none
  | c :: cs =>
    match dropPrefixL hdr (c :: cs) with
    | some after =>
      match findVQ after with
      | some m => some ⟨[], hdr ++ m.gap ++ m.cons, m.val, m.rest⟩
      | none => (findMatch hdr cs).map fun x => { x with pre := c :: x.pre }
    | none => (findMatch hdr cs).map fun x => { x with pre := c :: x.pre }

/-- `re.sub`: replace every non-overlapping match, scanning forward.  Each
match consumes at least the header, so fuel `s.length` is never exhausted. -/
def reSubAll (hdr v : List Char) : Nat → List Char → List Char
  | 0, s => s
  | fuel + 1, s =>
    match findMatch hdr s with
    | none => s
    | some m => m.pre ++ m.grp ++ v ++ '"' :: reSubAll hdr v fuel m.rest

/-- The whole-content substitution for one header. -/
def hdrSub (hdr : List Char) (text v : String) : String :=
  (reSubAll hdr v.toList text.toList.length text.toList).asString

/-! ## JSON model (`json.load` / `json.dump`)

`tauri.conf.json` and `package.json` are read with `json.load` and written
with `json.dump(..., indent=2, ensure_ascii=False)`.  We model JSON values
explicitly, following Python's strict decoder: number tokens obey the
`-?(0|[1-9]\d*)(\.\d+)?([eE][+-]?\d+)?` grammar (so `01` and `1.2.3` fail
with `Extra data`, as in CPython), the non-standard float literals `NaN`,
`Infinity` and `-Infinity` are accepted (they parse to floats, on which the
patchers' `in` tests then raise an uncaught `TypeError`), and strings allow
only the valid escapes and `\uXXXX` forms and reject raw control
characters.  String bodies keep their source escapes verbatim (the script
never inspects string contents, only replaces the version value, so this is
observation-equivalent).  Numbers keep their literal text.  Objects model
Python dicts: duplicate keys in the source collapse to one entry (first
position, last value), insertion order is preserved. -/

inductive JValue where
  | null
  | bool (b : Bool)
  | num (lit : String)
  | str (s : String)
  | arr (elems : List JValue)
  | obj (fields : List (String × JValue))

/-- Python exceptions distinguished by the script's `except` clauses:
`_update_tauri_conf` catches `json.JSONDecodeError` and `KeyError`,
`_update_package_json` catches only `json.JSONDecodeError`; `TypeError`
is never caught inside the script. -/
inductive PyErr where
  | jsonDecode (msg : String)
  | keyError (msg : String)
  | typeError (msg : String)
deriving DecidableEq, Repr

/-- Dict insertion: assigning to an existing key keeps its position and
replaces the value, otherwise appends. -/
def insertKey (key : String) (v : JValue) :
    List (String × JValue) → List (String × JValue)
  | [] => [(key, v)]
  | (k, w) :: rest =>
    if k = key then (k, v) :: rest else (k, w) :: insertKey key v rest

def lookupKey (key : String) : List (String × JValue) → Option JValue
  | [] => none
  | (k, w) :: rest => if k = key then some w else lookupKey key rest

def jsonWs (c : Char) : Bool :=
  c = ' ' || c = '\t' || c = '\n' || c = '\r'

def isHexDigit (c : Char) : Bool :=
  isAsciiDigit c || ('a' ≤ c && c ≤ 'f') || ('A' ≤ c && c ≤ 'F')

/-- The single-character escapes Python's strict `json.load` accepts. -/
def validEscChar (c : Char) : Bool :=
  c = '"' || c = '\\' || c = '/' || c = 'b' || c = 'f' || c = 'n' || c = 'r' || c = 't'

/-- Scan a JSON string body up to the unescaped closing quote, with Python's
strict rules: only the listed escapes and well-formed `\uXXXX` are allowed,
and raw control characters (below 0x20) are a decode error.  The accumulated
body keeps the escape sequences verbatim (the script never inspects string
contents, so this is observation-equivalent). -/
def scanStr (acc : List Char) : List Char → Except PyErr (List Char × List Char)
  | [] => .error (.jsonDecode "Unterminated string")
  | '"' :: rest => .ok (acc.reverse, rest)
  | '\\' :: [] => .error (.jsonDecode "Unterminated string")
  | '\\' :: 'u' :: h1 :: h2 :: h3 :: h4 :: rest =>
    if isHexDigit h1 && isHexDigit h2 && isHexDigit h3 && isHexDigit h4 then
      scanStr (h4 :: h3 :: h2 :: h1 :: 'u' :: '\\' :: acc) rest
    else .error (.jsonDecode "Invalid \\uXXXX escape")
  | '\\' :: c :: rest =>
    if validEscChar c then scanStr (c :: '\\' :: acc) rest
    else .error (.jsonDecode "Invalid \\escape")
  | c :: rest =>
    if c.toNat < 32 then .error (.jsonDecode "Invalid control character")
    else scanStr (c :: acc) rest

/-- The integer part of Python's JSON number grammar: `0` alone, or a
nonzero digit followed by digits (no leading zeros). -/
def scanIntPart (l : List Char) : Option (List Char × List Char) :=
  match l with
  | [] => none
  | '0' :: r => some (['0'], r)
  | c :: _ =>
    if isAsciiDigit c then some (l.takeWhile isAsciiDigit, l.dropWhile isAsciiDigit)
    else none

/-- The optional fraction part `(\.\d+)?`; consumes nothing when absent or
ill-formed (maximal munch of the regex). -/
def scanFrac (l : List Char) : List Char × List Char :=
  match l with
  | '.' :: r =>
    let ds := r.takeWhile isAsciiDigit
    if ds.isEmpty then ([], l) else ('.' :: ds, r.dropWhile isAsciiDigit)
  | _ => ([], l)

/-- The optional exponent part `([eE][+-]?\d+)?`; consumes nothing when
absent or ill-formed. -/
def scanExp (l : List Char) : List Char × List Char :=
  match l with
  | c :: r =>
    if c = 'e' || c = 'E' then
      let (sgn, r2) : List Char × List Char :=
        match r with
        | s :: rr => if s = '+' || s = '-' then ([s], rr) else ([], r)
        | [] => ([], r)
      let ds := r2.takeWhile isAsciiDigit
      if ds.isEmpty then ([], l)
      else (c :: (sgn ++ ds), r2.dropWhile isAsciiDigit)
    else ([], l)
  | [] => ([], l)

/-- Python's JSON number token `-?(0|[1-9]\d*)(\.\d+)?([eE][+-]?\d+)?`
(maximal munch): the consumed literal and the remainder, or `none` when no
number token starts here.  `01` yields `0` with remainder `1`, `1.2.3`
yields `1.2` with remainder `.3` — exactly as Python's scanner, which then
reports the leftover as `Extra data` / a delimiter error. -/
def scanNumber (l : List Char) : Option (List Char × List Char) :=
  let (sgn, r1) : List Char × List Char :=
    match l with
    | '-' :: r => (['-'], r)
    | _ => ([], l)
  match scanIntPart r1 with
  | none => none
  | some (ip, r2) =>
    let (fp, r3) := scanFrac r2
    let (ep, r4) := scanExp r3
    some (sgn ++ ip ++ fp ++ ep, r4)

def litTrue : List Char := ['t', 'r', 'u', 'e']
def litFalse : List Char := ['f', 'a', 'l', 's', 'e']
def litNull : List Char := ['n', 'u', 'l', 'l']

/-- `json.load` with default `parse_constant` also accepts these non-standard
float literals (as IEEE values; we keep their literal spelling). -/
def litNaN : List Char := ['N', 'a', 'N']
def litInf : List Char := ['I', 'n', 'f', 'i', 'n', 'i', 't', 'y']
def litNegInf : List Char := '-' :: litInf

mutual

/-- Recursive-descent JSON value parser (fuel-indexed; the fuel used at the
top level is generous enough for any input). -/
def parseVal : Nat → List Char → Except PyErr (JValue × List Char)
  | 0, _ => .error (.jsonDecode "Expecting value")
  | fuel + 1, l =>
    let l := l.dropWhile jsonWs
    match dropPrefixL litTrue l with
    | some r => .ok (.bool true, r)
    | none =>
    match dropPrefixL litFalse l with
    | some r => .ok (.bool false, r)
    | none =>
    match dropPrefixL litNull l with
    | some r => .ok (.null, r)
    | none =>
    match dropPrefixL litNaN l with
    | some r => .ok (.num "NaN", r)
    | none =>
    match dropPrefixL litInf l with
    | some r => .ok (.num "Infinity", r)
    | none =>
    match dropPrefixL litNegInf l with
    | some r => .ok (.num "-Infinity", r)
    | none =>
    match l with
    | [] => .error (.jsonDecode "Expecting value")
    | '"' :: rest =>
      match scanStr [] rest with
      | .error e => .error e
      | .ok (body, r) => .ok (.str body.asString, r)
    | '{' :: rest =>
      match rest.dropWhile jsonWs with
      | '}' :: r => .ok (.obj [], r)
      | r =>
        match parseMembers fuel [] r with
        | .error e => .error e
        | .ok (fields, r2) => .ok (.obj fields, r2)
    | '[' :: rest =>
      match rest.dropWhile jsonWs with
      | ']' :: r => .ok (.arr [], r)
      | r =>
        match parseItems fuel [] r with
        | .error e => .error e
        | .ok (elems, r2) => .ok (.arr elems, r2)
    | _ =>
      match scanNumber l with
      | some (lit, r) => .ok (.num lit.asString, r)
      | none => .error (.jsonDecode "Expecting value")

/-- Parse the members of an object after `{` (at least one member). -/
def parseMembers (fuel : Nat) (acc : List (String × JValue)) (l : List Char) :
    Except PyErr (List (String × JValue) × List Char) :=
  match fuel with
  | 0 => .error (.jsonDecode "Expecting property name")
  | fuel + 1 =>
    match l.dropWhile jsonWs with
    | '"' :: rest =>
      match scanStr [] rest with
      | .error e => .error e
      | .ok (key, r1) =>
        match r1.dropWhile jsonWs with
        | ':' :: r2 =>
          match parseVal fuel r2 with
          | .error e => .error e
          | .ok (v, r3) =>
            let acc := insertKey key.asString v acc
            match r3.dropWhile jsonWs with
            | ',' :: r4 => parseMembers fuel acc r4
            | '}' :: r4 => .ok (acc, r4)
            | _ => .error (.jsonDecode "Expecting comma delimiter")
        | _ => .error (.jsonDecode "Expecting colon delimiter")
    | _ => .error (.jsonDecode "Expecting property name enclosed in double quotes")

/-- Parse the items of an array after `[` (at least one item). -/
def parseItems (fuel : Nat) (acc : List JValue) (l : List Char) :
    Except PyErr (List JValue × List Char) :=
  match fuel with
  | 0 => .error (.jsonDecode "Expecting value")
  | fuel + 1 =>
    match parseVal fuel l with
    | .error e => .error e
    | .ok (v, r1) =>
      match r1.dropWhile jsonWs with
      | ',' :: r2 => parseItems fuel (v :: acc) r2
      | ']' :: r2 => .ok ((v :: acc).reverse, r2)
      | _ => .error (.jsonDecode "Expecting comma delimiter")

end

/-- `json.load` on file text: parse one value, reject trailing garbage. -/
def parseJson (text : String) : Except PyErr JValue :=
  match parseVal (2 * text.toList.length + 2) text.toList with
  | .error e => .error e
  | .ok (v, rest) =>
    if rest.dropWhile jsonWs = [] then .ok v
    else .error (.jsonDecode "Extra data")

def indentChars (n : Nat) : List Char := List.replicate (2 * n) ' '

mutual

/-- `json.dumps(v, indent=2, ensure_ascii=False)`. -/
def dumpVal : JValue → Nat → List Char
  | .null, _ => litNull
  | .bool true, _ => litTrue
  | .bool false, _ => litFalse
  | .num lit, _ => lit.toList
  | .str s, _ => '"' :: s.toList ++ ['"']
  | .obj [], _ => ['{', '}']
  | .obj (f :: fs), ind =>
    '{' :: '\n' :: dumpMembers (f :: fs) (ind + 1) ++
      '\n' :: indentChars ind ++ ['}']
  | .arr [], _ => ['[', ']']
  | .arr (x :: xs), ind =>
    '[' :: '\n' :: dumpItems (x :: xs) (ind + 1) ++
      '\n' :: indentChars ind ++ [']']

def dumpMembers : List (String × JValue) → Nat → List Char
  | [], _ => []
  | [(k, v)], ind =>
    indentChars ind ++ '"' :: k.toList ++ '"' :: ':' :: ' ' :: dumpVal v ind
  | (k, v) :: f :: fs, ind =>
    (indentChars ind ++ '"' :: k.toList ++ '"' :: ':' :: ' ' :: dumpVal v ind)
      ++ ',' :: '\n' :: dumpMembers (f :: fs) ind

def dumpItems : List JValue → Nat → List Char
  | [], _ => []
  | [v], ind => indentChars ind ++ dumpVal v ind
  | v :: x :: xs, ind =>
    (indentChars ind ++ dumpVal v ind) ++ ',' :: '\n' :: dumpItems (x :: xs) ind

end

/-- `json.dump(v, f, indent=2, ensure_ascii=False)` output text. -/
def jsonDump (v : JValue) : String :=
  (dumpVal v 0).asString

/-! ## Python dynamic operations on parsed JSON values -/

/-- Substring test (Python `needle in haystack` on strings). -/
def isSubL : List Char → List Char → Bool
  | n, [] => n.isEmpty
  | n, c :: cs => n.isPrefixOf (c :: cs) || isSubL n cs

/-- Python `key in v` for a parsed JSON value: dict key lookup, list
membership (only string elements can equal a string key), substring test on
strings; `TypeError` otherwise. -/
def pyIn (key : String) (v : JValue) : Except PyErr Bool :=
  match v with
  | .obj fields => .ok (fields.any fun f => f.1 = key)
  | .arr elems =>
    .ok (elems.any fun e =>
      match e with
      | .str s => s = key
      | _ => false)
  | .str s => .ok (isSubL key.toList s.toList)
  | _ => .error (.typeError "argument of type is not iterable")

/-- Python `v[key]` for a string key. -/
def pyIndex (v : JValue) (key : String) : Except PyErr JValue :=
  match v with
  | .obj fields =>
    match lookupKey key fields with
    | some w => .ok w
    | none => .error (.keyError key)
  | _ => .error (.typeError "indices must be valid for this type")

/-- Python `v[key] = val` for a string key. -/
def pySetItem (v : JValue) (key : String) (val : JValue) :
    Except PyErr JValue :=
  match v with
  | .obj fields => .ok (.obj (insertKey key val fields))
  | _ => .error (.typeError "object does not support item assignment")

/-! ## The four manifest patchers

Each patcher takes the file's content (`none` when the file does not exist
at `project_root / name`) and the new version, and yields either an uncaught
Python exception or a `PatchResult`: the content written back (`none` when
nothing is written), the lines printed, and the returned Boolean. -/

structure PatchResult where
  write : Option String
  output : List String
  ret : Bool
deriving DecidableEq, Repr

def updMsg (name v : String) : String :=
  "✓ 更新 " ++ name ++ " 版本为 " ++ v

def parseFailMsg (name msg : String) : String :=
  "✗ 解析 " ++ name ++ " 失败: " ++ msg

/-- `_update_cargo_toml`: regex-substitute the `[package]` version field,
write only when the substitution changed the text. -/
def update_cargo_toml (content : Option String) (v : String) :
    Except PyErr PatchResult :=
  match content with
  | none => .ok ⟨none, [], false⟩
  | some text =>
    let nc := hdrSub pkgHdr text v
    if nc ≠ text then .ok ⟨some nc, [updMsg "Cargo.toml" v], true⟩
    else .ok ⟨none, [], false⟩

/-- `_update_pyproject_toml`: try the `[tool.poetry]` pattern first, then the
`[project]` pattern; write on the first pattern that changed the text. -/
def update_pyproject_toml (content : Option String) (v : String) :
    Except PyErr PatchResult :=
  match content with
  | none => .ok ⟨none, [], false⟩
  | some text =>
    let n1 := hdrSub poetryHdr text v
    if n1 ≠ text then .ok ⟨some n1, [updMsg "pyproject.toml" v], true⟩
    else
      let n2 := hdrSub projectHdr text v
      if n2 ≠ text then .ok ⟨some n2, [updMsg "pyproject.toml" v], true⟩
      else .ok ⟨none, [], false⟩

/-- The `try:` body of `_update_tauri_conf` after a successful parse: set
`config['package']['version']` (creating `config['package']` when absent),
following Python's evaluation order and exception behaviour. -/
def tauriBody (config : JValue) (v : String) : Except PyErr JValue :=
  match pyIn "package" config with
  | .error e => .error e
  | .ok hasPkg =>
    -- the condition `'package' in config and 'version' in config['package']`
    let cond : Except PyErr Bool :=
      if hasPkg then
        match pyIndex config "package" with
        | .error e => .error e
        | .ok pkg => pyIn "version" pkg
      else .ok false
    match cond with
    | .error e => .error e
    | .ok c =>
      -- in the else branch, `config['package'] = {}` runs only when absent
      let config1 : Except PyErr JValue :=
        if c then .ok config
        else if !hasPkg then pySetItem config "package" (.obj [])
        else .ok config
      match config1 with
      | .error e => .error e
      | .ok cfg =>
        -- both branches end with `config['package']['version'] = new_version`
        match pyIndex cfg "package" with
        | .error e => .error e
        | .ok pkg =>
          match pySetItem pkg "version" (.str v) with
          | .error e => .error e
          | .ok pkg1 => pySetItem cfg "package" pkg1

/-- `_update_tauri_conf`: parse, set the nested version, rewrite the whole
file; `json.JSONDecodeError` and `KeyError` are caught and reported, any
other exception propagates. -/
def update_tauri_conf (content : Option String) (v : String) :
    Except PyErr PatchResult :=
  match content with
  | none => .ok ⟨none, [], false⟩
  | some text =>
    let body : Except PyErr JValue :=
      match parseJson text with
      | .error e => .error e
      | .ok config => tauriBody config v
    match body with
    | .ok config1 =>
      .ok ⟨some (jsonDump config1), [updMsg "tauri.conf.json" v], true⟩
    | .error (.jsonDecode m) =>
      .ok ⟨none, [parseFailMsg "tauri.conf.json" m], false⟩
    | .error (.keyError m) =>
      .ok ⟨none, [parseFailMsg "tauri.conf.json" m], false⟩
    | .error (.typeError m) => .error (.typeError m)

/-- `_update_package_json`: parse, set the top-level `version` only when the
key is already present, rewrite the whole file; only `json.JSONDecodeError`
is caught. -/
def update_package_json (content : Option String) (v : String) :
    Except PyErr PatchResult :=
  match content with
  | none => .ok ⟨none, [], false⟩
  | some text =>
    match parseJson text with
    | .error (.jsonDecode m) =>
      .ok ⟨none, [parseFailMsg "package.json" m], false⟩
    | .error e => .error e
    | .ok package =>
      match pyIn "version" package with
      | .error e => .error e
      | .ok hasVer =>
        if hasVer then
          match pySetItem package "version" (.str v) with
          | .error e => .error e
          | .ok package1 =>
            .ok ⟨some (jsonDump package1), [updMsg "package.json" v], true⟩
        else .ok ⟨none, [], false⟩

/-! ## The workflow state monad

Observable events of one run: printed lines, git subprocess invocations,
manifest file writes, and the one interactive stdin read.  A run ends in
`ok` (normal return), `exited code` (`sys.exit`), or `raised msg` (an
uncaught Python exception, caught only by `main`'s top-level handler). -/

inductive Event where
  | print (s : String)
  | gitCmd (args : List String)
  | writeFile (name : String) (content : String)
  | readInput
deriving DecidableEq, Repr

inductive Outcome (α : Type) where
  | ok (a : α)
  | exited (code : Nat)
  | raised (msg : String)
deriving DecidableEq, Repr

/-- Process state: the manifest files in the project root (name, content)
and the trace of events so far. -/
structure PState where
  files : List (String × String)
  trace : List Event
deriving DecidableEq, Repr

/-- The environment: what the external `git` binary answers for each argument
vector (`.error` = non-zero exit with this stderr, `.ok` = this stdout), and
the line `input()` returns. -/
structure Env where
  gitExec : List String → Except String String
  stdin : String

def M (α : Type) : Type := PState → Outcome α × PState

def M.pure (a : α) : M α := fun s => (.ok a, s)

def M.bind (x : M α) (f : α → M β) : M β := fun s =>
  match x s with
  | (.ok a, s1) => f a s1
  | (.exited n, s1) => (.exited n, s1)
  | (.raised m, s1) => (.raised m, s1)

def printM (msg : String) : M Unit := fun s =>
  (.ok (), { s with trace := s.trace ++ [.print msg] })

def exitM (code : Nat) : M Unit := fun s => (.exited code, s)

/-- `input()`: one line read from standard input. -/
def readInputM (env : Env) : M String := fun s =>
  (.ok env.stdin, { s with trace := s.trace ++ [.readInput] })

def lookupFile (files : List (String × String)) (name : String) :
    Option String :=
  match files with
  | [] => none
  | (n, c) :: rest => if n = name then some c else lookupFile rest name

def setFile (files : List (String × String)) (name content : String) :
    List (String × String) :=
  match files with
  | [] => [(name, content)]
  | (n, c) :: rest =>
    if n = name then (n, content) :: rest else (n, c) :: setFile rest name content

/-! ## Git operations facade -/

def cmdFailMsg (cmd : List String) : String :=
  "错误执行命令: " ++ String.intercalate " " cmd

def errInfoMsg (stderr : String) : String :=
  "错误信息: " ++ stderr

/-- `run_command`: invoke git; on success return `stdout.strip()`, on
non-zero exit print the command and its stderr and `sys.exit(1)`. -/
def run_command (env : Env) (cmd : List String) : M String := fun s =>
  let s1 : PState := { s with trace := s.trace ++ [.gitCmd cmd] }
  match env.gitExec cmd with
  | .ok out => (.ok (pyStrip out), s1)
  | .error stderr =>
    (.exited 1,
      { s1 with trace := s1.trace ++ [.print (cmdFailMsg cmd), .print (errInfoMsg stderr)] })

def get_current_branch (env : Env) : M String :=
  run_command env ["git", "branch", "--show-current"]

/-- Python `str.split('\n')` on a character list. -/
def splitNlL (l : List Char) : List (List Char) :=
  match l with
  | [] => [[]]
  | c :: rest =>
    let r := splitNlL rest
    if c = '\n' then [] :: r
    else
      match r with
      | [] => [[c]]
      | g :: gs => (c :: g) :: gs

/-- Python `str.split('\n')`. -/
def splitNl (s : String) : List String :=
  (splitNlL s.toList).map List.asString

/-- `get_remote_repos`: `git remote` output split on newlines, `[]` when the
(stripped) output is empty. -/
def get_remote_repos (env : Env) : M (List String) :=
  M.bind (run_command env ["git", "remote"]) fun out =>
  M.pure (if out = "" then [] else splitNl out)

/-- `check_git_status`: true iff `git status --porcelain` (stripped) is
empty. -/
def check_git_status (env : Env) : M Bool :=
  M.bind (run_command env ["git", "status", "--porcelain"]) fun status =>
  M.pure (status.length == 0)

/-! ## Version file orchestrator -/

/-- Run one pure patcher against the project state: write the file if asked,
append the printed lines, return the Boolean; an uncaught Python exception
becomes a `raised` outcome. -/
def applyPatchM (name : String)
    (pf : Option String → String → Except PyErr PatchResult)
    (v : String) : M Bool := fun s =>
  match pf (lookupFile s.files name) v with
  | .error e =>
    (.raised (match e with
      | .jsonDecode m => m
      | .keyError m => m
      | .typeError m => m), s)
  | .ok r =>
    match r.write with
    | some c =>
      (.ok r.ret,
        { files := setFile s.files name c,
          trace := s.trace ++ .writeFile name c :: r.output.map .print })
    | none => (.ok r.ret, { s with trace := s.trace ++ r.output.map .print })

def uvfStartMsg (v : String) : String :=
  "开始更新版本文件到 " ++ v ++ "..."

def noFilesWarn : String := "⚠ 没有找到需要更新的版本文件"

/-- `update_version_files`: apply the four patchers in dict-insertion order,
count the updates, warn when zero. -/
def update_version_files (v : String) : M Nat :=
  M.bind (printM (uvfStartMsg v)) fun _ =>
  M.bind (applyPatchM "Cargo.toml" update_cargo_toml v) fun b1 =>
  M.bind (applyPatchM "tauri.conf.json" update_tauri_conf v) fun b2 =>
  M.bind (applyPatchM "package.json" update_package_json v) fun b3 =>
  M.bind (applyPatchM "pyproject.toml" update_pyproject_toml v) fun b4 =>
  let count := b1.toNat + b2.toNat + b3.toNat + b4.toNat
  M.bind (if count = 0 then printM noFilesWarn else M.pure ()) fun _ =>
  M.pure count

/-! ## Commit, tag, push -/

/-- The commit message: Python `if not commit_message:` treats both `None`
and the empty string as absent and falls back to the default. -/
def commitMsgOf (v : String) (msg : Option String) : String :=
  match msg with
  | none => "发布版本 v" ++ v
  | some m => if m = "" then "发布版本 v" ++ v else m

def commitDoneMsg (m : String) : String := "✓ 提交更改: " ++ m

def tagDoneMsg (t : String) : String := "✓ 创建标签: " ++ t

/-- `git_commit_and_tag`: stage everything, commit, create the annotated
tag `v<version>`. -/
def git_commit_and_tag (env : Env) (v : String) (msg : Option String) :
    M Unit :=
  let cm := commitMsgOf v msg
  M.bind (run_command env ["git", "add", "."]) fun _ =>
  M.bind (run_command env ["git", "commit", "-m", cm]) fun _ =>
  M.bind (printM (commitDoneMsg cm)) fun _ =>
  M.bind (run_command env ["git", "tag", "-a", "v" ++ v, "-m", "版本 v" ++ v]) fun _ =>
  printM (tagDoneMsg ("v" ++ v))

def noRemotesMsg : String := "⚠ 没有找到远程仓库"

def pushStartMsg (n : Nat) : String :=
  "开始推送到 " ++ toString n ++ " 个远程仓库..."

def pushedBranchMsg (remote branch : String) : String :=
  "✓ 推送分支到 " ++ remote ++ "/" ++ branch

def pushedTagsMsg (remote : String) : String :=
  "✓ 推送标签到 " ++ remote

/-- The `for remote in remotes:` loop body of `push_to_all_remotes`. -/
def pushLoop (env : Env) (branch : String) : List String → M Unit
  | [] => M.pure ()
  | r :: rest =>
    M.bind (run_command env ["git", "push", r, branch]) fun _ =>
    M.bind (printM (pushedBranchMsg r branch)) fun _ =>
    M.bind (run_command env ["git", "push", r, "--tags"]) fun _ =>
    M.bind (printM (pushedTagsMsg r)) fun _ =>
    pushLoop env branch rest

/-- The remote-listing and push phase of `push_to_all_remotes`, after the
branch has been resolved: an empty remotes list prints a notice and returns,
otherwise each remote gets the branch push and then the tags push. -/
def pushPhase (env : Env) (b : String) : M Unit :=
  M.bind (get_remote_repos env) fun remotes =>
  match remotes with
  | [] => printM noRemotesMsg
  | r :: rs =>
    M.bind (printM (pushStartMsg (r :: rs).length)) fun _ =>
    pushLoop env b (r :: rs)

/-- The branch resolution step of `push_to_all_remotes`: Python
`if not branch:` resolves both `None` and the empty string to the current
branch. -/
def resolveBranch (env : Env) (branch : Option String) : M String :=
  match branch with
  | some b => if b = "" then get_current_branch env else M.pure b
  | none => get_current_branch env

/-- `push_to_all_remotes`: resolve the branch, then run the push phase. -/
def push_to_all_remotes (env : Env) (branch : Option String) : M Unit :=
  M.bind (resolveBranch env branch) fun b =>
  pushPhase env b

/-! ## The release workflow and `main` -/

def sepLine : String := (List.replicate 50 '=').asString

def startMsg (v : String) : String := "开始发布流程 - 版本: " ++ v

def dirtyMsg : String := "✗ 工作区有未提交的更改，请先提交或暂存更改"

def cleanMsg : String := "✓ 工作区干净"

def promptMsg : String := "⚠ 没有文件被更新，是否继续？(y/N)"

def cancelMsg : String := "发布流程已取消"

def skipPushMsg : String := "⚠ 跳过推送步骤"

def doneMsg (v : String) : String :=
  "✅ 发布完成! 版本 " ++ v ++ " 已准备就绪"

/-- Steps 3 and 4 of `release` (commit & tag, then push unless skipped,
then the closing banner). -/
def releaseSteps34 (env : Env) (v : String) (msg branch : Option String)
    (skipPush : Bool) : M Unit :=
  M.bind (git_commit_and_tag env v msg) fun _ =>
  M.bind (if skipPush then printM skipPushMsg else push_to_all_remotes env branch) fun _ =>
  M.bind (printM sepLine) fun _ =>
  M.bind (printM (doneMsg v)) fun _ =>
  printM sepLine

/-- `release`: banner, clean check (dirty ⇒ report and `sys.exit(1)`),
version-file patching (zero updates ⇒ interactive confirmation, any answer
whose lowercase form differs from `"y"` cancels), then commit/tag/push. -/
def release (env : Env) (v : String) (msg branch : Option String)
    (skipPush : Bool) : M Unit :=
  M.bind (printM sepLine) fun _ =>
  M.bind (printM (startMsg v)) fun _ =>
  M.bind (printM sepLine) fun _ =>
  M.bind (check_git_status env) fun clean =>
  if !clean then
    M.bind (printM dirtyMsg) fun _ => exitM 1
  else
    M.bind (printM cleanMsg) fun _ =>
    M.bind (update_version_files v) fun count =>
    if count = 0 then
      M.bind (printM promptMsg) fun _ =>
      M.bind (readInputM env) fun ans =>
      if pyLower ans ≠ "y" then printM cancelMsg
      else releaseSteps34 env v msg branch skipPush
    else releaseSteps34 env v msg branch skipPush

/-- The parsed command-line arguments (after `argparse`). -/
structure Args where
  version : String
  message : Option String
  branch : Option String
  skipPush : Bool

def fmtErrMsg : String := "错误: 版本号格式应为 x.y.z (例如: 1.2.3)"

def topErrMsg (m : String) : String := "发布过程中出现错误: " ++ m

/-- The `try/except Exception` around `manager.release(...)`: a Python
exception is reported and converted to `sys.exit(1)`; a `sys.exit`
(`SystemExit` is not an `Exception`) passes through untouched. -/
def topCatch (r : Outcome Unit × PState) : Outcome Unit × PState :=
  match r with
  | (.raised m, s) =>
    (.exited 1, { s with trace := s.trace ++ [.print (topErrMsg m)] })
  | other => other

/-- `main` after argument parsing: validate the version format, then run the
release under the top-level handler. -/
def main_run (env : Env) (files : List (String × String)) (a : Args) :
    Outcome Unit × PState :=
  if versionOk a.version then
    topCatch (release env a.version a.message a.branch a.skipPush ⟨files, []⟩)
  else
    (.exited 1, ⟨files, [.print fmtErrMsg]⟩)

/-- The process exit status implied by an outcome (normal return of `main`
exits 0; an uncaught exception would exit 1). -/
def exitStatus (r : Outcome Unit × PState) : Nat :=
  match r.1 with
  | .ok _ => 0
  | .exited n => n
  | .raised _ => 1

/-! ## Concrete environments used to instantiate the theorems -/

/-- An environment in which every git command succeeds with empty output
(in particular: clean working tree, no remotes) and stdin answers `n`. -/
def envAllOk : Env := ⟨fun _ => .ok "", "n"⟩

/-- Like `envAllOk` but `git status --porcelain` reports one modified file. -/
def envDirty : Env :=
  ⟨fun cmd =>
    if cmd = ["git", "status", "--porcelain"] then .ok " M main.py\n" else .ok "",
   "n"⟩

/-- Like `envAllOk` but with one remote `origin` and a current branch
`main`. -/
def envOneRemote : Env :=
  ⟨fun cmd =>
    if cmd = ["git", "remote"] then .ok "origin\n"
    else if cmd = ["git", "branch", "--show-current"] then .ok "main\n"
    else .ok "",
   "n"⟩

/-- The trace produced by `release` up to and including the clean-check on a
clean tree. -/
def preTrace (v : String) : List Event :=
  [.print sepLine, .print (startMsg v), .print sepLine,
   .gitCmd ["git", "status", "--porcelain"], .print cleanMsg]

/-! ## Claim C2: version-format validation gate -/

/-- C2: a version argument matching `^\d+\.\d+\.\d+$` (Python semantics,
including the `$`-before-one-trailing-newline case) passes validation and the
workflow proceeds into `release`; any other argument makes the program print
the format error and exit with status 1 with nothing else in the trace — no
file write and no git command has happened.  The sample strings of the claim
behave as claimed. -/
theorem C2_version_validation_gate :
    versionOk "1.2.3" = true ∧
    versionOk "1.2" = false ∧
    versionOk "v1.2.3" = false ∧
    versionOk "1.2.3-beta" = false ∧
    (∀ (env : Env) (files : List (String × String)) (a : Args),
      main_run env files a =
        if versionOk a.version then
          topCatch (release env a.version a.message a.branch a.skipPush ⟨files, []⟩)
        else (.exited 1, ⟨files, [.print fmtErrMsg]⟩)) :=
  ⟨by decide, by decide, by decide, by decide, fun env files a => rfl⟩

/-! ## Claim C1: dirty working tree aborts before any mutation -/

/-- C1: whenever `git status --porcelain` reports a non-clean tree (its
output, as the wrapper sees it after `strip()`, is non-empty), `release`
prints the dirty-tree report and exits with status 1; the final trace shows
that the only subprocess invocation was the status query itself — no manifest
file was written and no `add`/`commit`/`tag` command was ever issued. -/
theorem C1_dirty_tree_aborts (env : Env) (v : String) (msg branch : Option String)
    (skipPush : Bool) (files : List (String × String)) (out : String)
    (hs : env.gitExec ["git", "status", "--porcelain"] = .ok out)
    (hd : (pyStrip out).length ≠ 0) :
    release env v msg branch skipPush ⟨files, []⟩ =
      (.exited 1, ⟨files,
        [.print sepLine, .print (startMsg v), .print sepLine,
         .gitCmd ["git", "status", "--porcelain"], .print dirtyMsg]⟩) := by
  have hb : ((pyStrip out).length == 0) = false := by
    simp [hd]
  simp [release, M.bind, printM, check_git_status, run_command, M.pure, exitM,
    hs, hb]

/-- Witness for C1 at a concrete dirty environment. -/
theorem C1_dirty_tree_aborts_witness :
    release envDirty "1.2.3" none none false ⟨[], []⟩ =
      (.exited 1, ⟨[],
        [.print sepLine, .print (startMsg "1.2.3"), .print sepLine,
         .gitCmd ["git", "status", "--porcelain"], .print dirtyMsg]⟩) :=
  C1_dirty_tree_aborts envDirty "1.2.3" none none false [] " M main.py\n"
    rfl (by decide)

/-! ## Claim C8: non-zero git exit is fatal, immediate, and not swallowed -/

/-- C8: when the external git invocation exits non-zero, `run_command`
prints the failing command and its captured stderr and terminates the process
with status 1; no continuation ever runs after it (the result of
`run_command ≫ k` is independent of `k` and adds exactly the two error
prints); and the top-level `except Exception` handler of `main` does not
intercept this termination (`sys.exit` raises `SystemExit`, which is not an
`Exception`). -/
theorem C8_git_failure_fatal (env : Env) (cmd : List String) (err : String)
    (st : PState) (k : String → M Unit)
    (h : env.gitExec cmd = .error err) :
    M.bind (run_command env cmd) k st =
      (.exited 1, { st with trace := st.trace ++
        [.gitCmd cmd, .print (cmdFailMsg cmd), .print (errInfoMsg err)] }) ∧
    topCatch (M.bind (run_command env cmd) k st) =
      M.bind (run_command env cmd) k st ∧
    exitStatus (M.bind (run_command env cmd) k st) = 1 := by
  have h1 : M.bind (run_command env cmd) k st =
      (.exited 1, { st with trace := st.trace ++
        [.gitCmd cmd, .print (cmdFailMsg cmd), .print (errInfoMsg err)] }) := by
    simp [M.bind, run_command, h]
  exact ⟨h1, by rw [h1]; rfl, by rw [h1]; rfl⟩

/-- Witness for C8: a failing `git commit` invocation followed by an
arbitrary continuation. -/
theorem C8_git_failure_fatal_witness :
    M.bind (run_command ⟨fun _ => .error "boom", "n"⟩ ["git", "commit", "-m", "x"])
        (fun _ => printM "never printed") ⟨[], []⟩ =
      (.exited 1, ⟨[],
        [.gitCmd ["git", "commit", "-m", "x"],
         .print (cmdFailMsg ["git", "commit", "-m", "x"]),
         .print (errInfoMsg "boom")]⟩) :=
  (C8_git_failure_fatal ⟨fun _ => .error "boom", "n"⟩ ["git", "commit", "-m", "x"]
    "boom" ⟨[], []⟩ (fun _ => printM "never printed") rfl).1

/-! ## Claim C9: commit and tag (corrected)

The claim says the commit uses "the caller-supplied message when one is
given".  The source tests `if not commit_message:`, and Python treats the
empty string as falsy, so a supplied empty message is replaced by the
default as well — the claim fails for `message = some ""`. -/

/-- C9 counterexample: with a supplied (empty) commit message, the commit is
made with the default message `发布版本 v1.0.0`, not with the supplied one —
the trace contains no `git commit -m ""` invocation. -/
theorem C9_counterexample_empty_message :
    git_commit_and_tag envAllOk "1.0.0" (some "") ⟨[], []⟩ =
      (.ok (), ⟨[],
        [.gitCmd ["git", "add", "."],
         .gitCmd ["git", "commit", "-m", "发布版本 v1.0.0"],
         .print (commitDoneMsg "发布版本 v1.0.0"),
         .gitCmd ["git", "tag", "-a", "v1.0.0", "-m", "版本 v1.0.0"],
         .print (tagDoneMsg "v1.0.0")]⟩) ∧
    (Event.gitCmd ["git", "commit", "-m", ""]) ∉
      (git_commit_and_tag envAllOk "1.0.0" (some "") ⟨[], []⟩).2.trace :=
  ⟨rfl, by decide⟩

/-- C9 (amended): `git_commit_and_tag` stages all changes (`git add .`),
commits with the caller-supplied message when a non-empty one is given and
with the default message `发布版本 v<version>` ("release version v<version>")
when none is given or the supplied message is empty, then creates an
annotated tag named exactly `v<version>` carrying its own annotation message
`版本 v<version>`. -/
theorem C9_commit_and_tag (env : Env) (v : String) (msg : Option String)
    (st : PState) (a c t : String)
    (ha : env.gitExec ["git", "add", "."] = .ok a)
    (hc : env.gitExec ["git", "commit", "-m", commitMsgOf v msg] = .ok c)
    (ht : env.gitExec ["git", "tag", "-a", "v" ++ v, "-m", "版本 v" ++ v] = .ok t) :
    git_commit_and_tag env v msg st =
      (.ok (), { st with trace := st.trace ++
        [.gitCmd ["git", "add", "."],
         .gitCmd ["git", "commit", "-m", commitMsgOf v msg],
         .print (commitDoneMsg (commitMsgOf v msg)),
         .gitCmd ["git", "tag", "-a", "v" ++ v, "-m", "版本 v" ++ v],
         .print (tagDoneMsg ("v" ++ v))] }) ∧
    commitMsgOf v none = "发布版本 v" ++ v ∧
    (∀ m : String, m ≠ "" → commitMsgOf v (some m) = m) ∧
    commitMsgOf v (some "") = "发布版本 v" ++ v := by
  refine ⟨?_, rfl, ?_, by simp [commitMsgOf]⟩
  · simp [git_commit_and_tag, M.bind, run_command, printM, ha, hc, ht]
  · intro m hm
    simp [commitMsgOf, hm]

/-- Witness for C9 at a concrete environment, version, and default
message. -/
theorem C9_commit_and_tag_witness :
    git_commit_and_tag envAllOk "0.2.0" none ⟨[], []⟩ =
      (.ok (), ⟨[],
        [.gitCmd ["git", "add", "."],
         .gitCmd ["git", "commit", "-m", commitMsgOf "0.2.0" none],
         .print (commitDoneMsg (commitMsgOf "0.2.0" none)),
         .gitCmd ["git", "tag", "-a", "v0.2.0", "-m", "版本 v0.2.0"],
         .print (tagDoneMsg "v0.2.0")]⟩) ∧
    commitMsgOf "0.2.0" none = "发布版本 v0.2.0" :=
  ⟨(C9_commit_and_tag envAllOk "0.2.0" none ⟨[], []⟩ "" "" "" rfl rfl rfl).1, rfl⟩

/-! ## Claim C7: pushing to all remotes (corrected)

The claim's branch resolution — "the given branch, or the current branch
when none is given" — misses the same truthiness detail: `if not branch:`
also treats a supplied empty branch name as absent, so `branch = some ""`
resolves to the current branch (and issues the extra
`git branch --show-current` call).  The iteration order, the
branch-then-tags per-remote sequence, and the empty-remotes notice are as
claimed. -/

/-- Branch resolution as performed by `push_to_all_remotes` (`if not
branch:` replaces `None` and the empty string by the current branch, which
`run_command` returns stripped). -/
def branchResolution (branch : Option String) (bout : String) : String :=
  match branch with
  | none => pyStrip bout
  | some s => if s = "" then pyStrip bout else s

/-- The git invocations performed by the branch resolution. -/
def branchResTrace (branch : Option String) : List Event :=
  match branch with
  | none => [.gitCmd ["git", "branch", "--show-current"]]
  | some s => if s = "" then [.gitCmd ["git", "branch", "--show-current"]] else []

/-- The remotes list computed from `git remote` output. -/
def remotesOf (rout : String) : List String :=
  if pyStrip rout = "" then [] else splitNl (pyStrip rout)

/-- The per-remote push events, in listing order: branch push, then tags
push, for each remote in turn. -/
def pushEvents (b : String) (rs : List String) : List Event :=
  rs.flatMap fun r =>
    [.gitCmd ["git", "push", r, b], .print (pushedBranchMsg r b),
     .gitCmd ["git", "push", r, "--tags"], .print (pushedTagsMsg r)]

theorem pushLoop_spec (env : Env) (b : String) (pushO tagsO : String → String) :
    ∀ (rs : List String) (st : PState),
      (∀ r ∈ rs, env.gitExec ["git", "push", r, b] = .ok (pushO r)) →
      (∀ r ∈ rs, env.gitExec ["git", "push", r, "--tags"] = .ok (tagsO r)) →
      pushLoop env b rs st =
        (.ok (), { st with trace := st.trace ++ pushEvents b rs })
  | [], st, _, _ => by simp [pushLoop, M.pure, pushEvents]
  | r :: rest, st, hp, ht => by
    have hpr := hp r (List.mem_cons_self r rest)
    have htr := ht r (List.mem_cons_self r rest)
    have ih := pushLoop_spec env b pushO tagsO rest
      { st with trace := st.trace ++
          [.gitCmd ["git", "push", r, b], .print (pushedBranchMsg r b),
           .gitCmd ["git", "push", r, "--tags"], .print (pushedTagsMsg r)] }
      (fun x hx => hp x (List.mem_cons_of_mem r hx))
      (fun x hx => ht x (List.mem_cons_of_mem r hx))
    simp only [pushLoop, M.bind, run_command, printM, hpr, htr]
    simp only [List.append_assoc, List.cons_append, List.nil_append] at ih ⊢
    rw [ih]
    simp [pushEvents]

theorem pushPhase_spec (env : Env) (b : String) (st : PState) (rout : String)
    (pushO tagsO : String → String)
    (hr : env.gitExec ["git", "remote"] = .ok rout)
    (hp : ∀ r ∈ remotesOf rout, env.gitExec ["git", "push", r, b] = .ok (pushO r))
    (ht : ∀ r ∈ remotesOf rout, env.gitExec ["git", "push", r, "--tags"] = .ok (tagsO r)) :
    pushPhase env b st =
      (.ok (), { st with trace := st.trace ++ [.gitCmd ["git", "remote"]] ++
        (match remotesOf rout with
         | [] => [.print noRemotesMsg]
         | rs => .print (pushStartMsg rs.length) :: pushEvents b rs) }) := by
  have hrem : (if pyStrip rout = "" then ([] : List String) else splitNl (pyStrip rout))
      = remotesOf rout := rfl
  simp only [pushPhase, M.bind, get_remote_repos, M.pure, run_command, hr, hrem]
  cases hR : remotesOf rout with
  | nil => simp [printM]
  | cons r rs =>
    rw [hR] at hp ht
    simp only [M.bind, printM]
    rw [pushLoop_spec env b pushO tagsO (r :: rs) _ hp ht]
    simp

/-- C7 (amended): `push_to_all_remotes` resolves the branch (the given
branch when a non-empty one is supplied; the current branch when none or an
empty one is given), lists the remotes, and — in the listing order — pushes
the resolved branch and then all tags to each remote before moving to the
next; when the remotes list is empty it prints the no-remotes notice and
returns normally, so the run is not aborted. -/
theorem C7_push_to_all_remotes (env : Env) (branch : Option String)
    (st : PState) (bout rout : String) (pushO tagsO : String → String)
    (hb : env.gitExec ["git", "branch", "--show-current"] = .ok bout)
    (hr : env.gitExec ["git", "remote"] = .ok rout)
    (hp : ∀ r ∈ remotesOf rout,
      env.gitExec ["git", "push", r, branchResolution branch bout] = .ok (pushO r))
    (ht : ∀ r ∈ remotesOf rout,
      env.gitExec ["git", "push", r, "--tags"] = .ok (tagsO r)) :
    push_to_all_remotes env branch st =
      (.ok (), { st with trace := st.trace ++ branchResTrace branch ++
        [.gitCmd ["git", "remote"]] ++
        (match remotesOf rout with
         | [] => [.print noRemotesMsg]
         | rs => .print (pushStartMsg rs.length) ::
             pushEvents (branchResolution branch bout) rs) }) := by
  have hresolve : resolveBranch env branch st =
      (.ok (branchResolution branch bout),
        { st with trace := st.trace ++ branchResTrace branch }) := by
    cases branch with
    | none =>
      simp [resolveBranch, get_current_branch, run_command, hb, branchResolution,
        branchResTrace]
    | some s =>
      by_cases hs : s = ""
      · subst hs
        simp [resolveBranch, get_current_branch, run_command, hb, branchResolution,
          branchResTrace]
      · simp [resolveBranch, M.pure, hs, branchResolution, branchResTrace]
  simp only [push_to_all_remotes, M.bind, hresolve]
  rw [pushPhase_spec env (branchResolution branch bout) _ rout pushO tagsO hr hp ht]

/-- Witness for C7: one remote `origin`, no branch given; the current
branch `main` is pushed, then the tags, in order. -/
theorem C7_push_to_all_remotes_witness :
    push_to_all_remotes envOneRemote none ⟨[], []⟩ =
      (.ok (), ⟨[],
        [.gitCmd ["git", "branch", "--show-current"],
         .gitCmd ["git", "remote"],
         .print (pushStartMsg 1),
         .gitCmd ["git", "push", "origin", "main"],
         .print (pushedBranchMsg "origin" "main"),
         .gitCmd ["git", "push", "origin", "--tags"],
         .print (pushedTagsMsg "origin")]⟩) := by
  have h := C7_push_to_all_remotes envOneRemote none ⟨[], []⟩ "main\n" "origin\n"
    (fun _ => "") (fun _ => "") rfl rfl
    (by intro r hr
        have : r = "origin" := by
          have hR : remotesOf "origin\n" = ["origin"] := by decide
          rw [hR] at hr
          simpa using hr
        subst this
        rfl)
    (by intro r hr
        have : r = "origin" := by
          have hR : remotesOf "origin\n" = ["origin"] := by decide
          rw [hR] at hr
          simpa using hr
        subst this
        rfl)
  rw [h]
  have hR : remotesOf "origin\n" = ["origin"] := by decide
  rw [hR]
  rfl

/-- C7 counterexample (for the claim's branch-resolution clause): with a
supplied empty branch, the push uses the current branch `main`, not the
given value — no `git push origin ""` appears in the trace, and the extra
branch-resolution call does. -/
theorem C7_counterexample_empty_branch :
    (Event.gitCmd ["git", "push", "origin", ""]) ∉
      (push_to_all_remotes envOneRemote (some "") ⟨[], []⟩).2.trace ∧
    (Event.gitCmd ["git", "push", "origin", "main"]) ∈
      (push_to_all_remotes envOneRemote (some "") ⟨[], []⟩).2.trace := by
  decide

/-! ## Patcher write/return lemmas

Each patcher, when it returns (rather than raising), returns `true` exactly
when it wrote the file. -/

theorem cargo_ret_eq_write (c : Option String) (v : String) (r : PatchResult)
    (h : update_cargo_toml c v = .ok r) : r.ret = r.write.isSome := by
  cases c with
  | none =>
    simp only [update_cargo_toml] at h
    cases h
    rfl
  | some text =>
    simp only [update_cargo_toml] at h
    split at h <;> cases h <;> rfl

theorem pyproject_ret_eq_write (c : Option String) (v : String) (r : PatchResult)
    (h : update_pyproject_toml c v = .ok r) : r.ret = r.write.isSome := by
  cases c with
  | none =>
    simp only [update_pyproject_toml] at h
    cases h
    rfl
  | some text =>
    simp only [update_pyproject_toml] at h
    split at h
    · cases h; rfl
    · split at h <;> cases h <;> rfl

theorem tauri_ret_eq_write (c : Option String) (v : String) (r : PatchResult)
    (h : update_tauri_conf c v = .ok r) : r.ret = r.write.isSome := by
  cases c with
  | none =>
    simp only [update_tauri_conf] at h
    cases h
    rfl
  | some text =>
    simp only [update_tauri_conf] at h
    repeat' split at h
    all_goals first
      | (cases h; rfl)
      | exact Except.noConfusion h

theorem package_ret_eq_write (c : Option String) (v : String) (r : PatchResult)
    (h : update_package_json c v = .ok r) : r.ret = r.write.isSome := by
  cases c with
  | none =>
    simp only [update_package_json] at h
    cases h
    rfl
  | some text =>
    simp only [update_package_json] at h
    repeat' split at h
    all_goals first
      | (cases h; rfl)
      | exact Except.noConfusion h

/-- A patcher result with `ret = false` wrote nothing. -/
theorem write_none_of_ret_false (r : PatchResult)
    (hiff : r.ret = r.write.isSome) (hf : r.ret = false) :
    r = ⟨none, r.output, false⟩ := by
  cases r with
  | mk w o b => cases w <;> simp_all

/-- When all four patchers report `false` (and hence, by the lemmas above,
write nothing), `update_version_files` leaves the files untouched, prints
only report lines plus the zero-updates warning, and returns count 0. -/
theorem uvf_all_false (v : String) (files : List (String × String))
    (tr : List Event) (o1 o2 o3 o4 : List String)
    (h1 : update_cargo_toml (lookupFile files "Cargo.toml") v = .ok ⟨none, o1, false⟩)
    (h2 : update_tauri_conf (lookupFile files "tauri.conf.json") v = .ok ⟨none, o2, false⟩)
    (h3 : update_package_json (lookupFile files "package.json") v = .ok ⟨none, o3, false⟩)
    (h4 : update_pyproject_toml (lookupFile files "pyproject.toml") v = .ok ⟨none, o4, false⟩) :
    update_version_files v ⟨files, tr⟩ =
      (.ok 0, ⟨files, tr ++ .print (uvfStartMsg v) ::
        ((o1 ++ o2 ++ o3 ++ o4).map .print ++ [.print noFilesWarn])⟩) := by
  simp [update_version_files, M.bind, printM, M.pure, applyPatchM, h1, h2, h3, h4]

/-! ## Claims C6 and C10: the zero-update interactive confirmation -/

/-- An all-ok environment whose stdin answers `Y`. -/
def envYes : Env := ⟨fun _ => .ok "", "Y"⟩

/-- C6: when the working tree is clean and all four patchers report no
update (zero files updated), `release` prompts, reads one line, and any
answer whose lowercase form is not `y` cancels the workflow: the run returns
normally, the final file state is exactly the initial one, the whole trace
consists of the status query, prints, and the stdin read (no commit, tag,
push, or file write), and the process exit status is 0. -/
theorem C6_zero_updates_cancel (env : Env) (v : String)
    (msg branch : Option String) (skipPush : Bool)
    (files : List (String × String)) (out : String) (r1 r2 r3 r4 : PatchResult)
    (hs : env.gitExec ["git", "status", "--porcelain"] = .ok out)
    (hclean : pyStrip out = "")
    (h1 : update_cargo_toml (lookupFile files "Cargo.toml") v = .ok r1)
    (hf1 : r1.ret = false)
    (h2 : update_tauri_conf (lookupFile files "tauri.conf.json") v = .ok r2)
    (hf2 : r2.ret = false)
    (h3 : update_package_json (lookupFile files "package.json") v = .ok r3)
    (hf3 : r3.ret = false)
    (h4 : update_pyproject_toml (lookupFile files "pyproject.toml") v = .ok r4)
    (hf4 : r4.ret = false)
    (hans : pyLower env.stdin ≠ "y")
    (hv : versionOk v = true) :
    release env v msg branch skipPush ⟨files, []⟩ =
      (.ok (), ⟨files, preTrace v ++ .print (uvfStartMsg v) ::
        ((r1.output ++ r2.output ++ r3.output ++ r4.output).map .print ++
         [.print noFilesWarn, .print promptMsg, .readInput, .print cancelMsg])⟩) ∧
    exitStatus (main_run env files ⟨v, msg, branch, skipPush⟩) = 0 := by
  rw [write_none_of_ret_false r1 (cargo_ret_eq_write _ _ _ h1) hf1] at h1
  rw [write_none_of_ret_false r2 (tauri_ret_eq_write _ _ _ h2) hf2] at h2
  rw [write_none_of_ret_false r3 (package_ret_eq_write _ _ _ h3) hf3] at h3
  rw [write_none_of_ret_false r4 (pyproject_ret_eq_write _ _ _ h4) hf4] at h4
  have huvf := uvf_all_false v files (preTrace v)
    r1.output r2.output r3.output r4.output h1 h2 h3 h4
  have hb : ((pyStrip out).length == 0) = true := by rw [hclean]; rfl
  have hrel : release env v msg branch skipPush ⟨files, []⟩ =
      (.ok (), ⟨files, preTrace v ++ .print (uvfStartMsg v) ::
        ((r1.output ++ r2.output ++ r3.output ++ r4.output).map .print ++
         [.print noFilesWarn, .print promptMsg, .readInput, .print cancelMsg])⟩) := by
    simp only [preTrace] at huvf
    simp only [release, M.bind, printM, check_git_status, run_command, M.pure,
      hs, hb, Bool.not_true, Bool.false_eq_true, if_false, List.nil_append,
      List.cons_append, List.append_nil]
    rw [huvf]
    simp [readInputM, hans, M.bind, printM, preTrace, List.map_append]
  refine ⟨hrel, ?_⟩
  simp [main_run, hv, topCatch, hrel, exitStatus]

/-- Witness for C6: clean tree, no manifest files at all, answer `n`. -/
theorem C6_zero_updates_cancel_witness :
    release envAllOk "1.0.0" none none false ⟨[], []⟩ =
      (.ok (), ⟨[], preTrace "1.0.0" ++ .print (uvfStartMsg "1.0.0") ::
        ((([] : List String) ++ [] ++ [] ++ []).map .print ++
         [.print noFilesWarn, .print promptMsg, .readInput, .print cancelMsg])⟩) ∧
    exitStatus (main_run envAllOk [] ⟨"1.0.0", none, none, false⟩) = 0 :=
  C6_zero_updates_cancel envAllOk "1.0.0" none none false [] ""
    ⟨none, [], false⟩ ⟨none, [], false⟩ ⟨none, [], false⟩ ⟨none, [], false⟩
    rfl rfl rfl rfl rfl rfl rfl rfl rfl rfl (by decide) (by decide)

/-- C10: in the zero-update prompt, the workflow continues to the commit
step (`releaseSteps34`, which starts with `git_commit_and_tag`) exactly when
the answer, lowercased, is the single character `y`; any other answer —
`yes`, the empty string, anything else — cancels.  `Y` lowercases to `y`
(continues) while `yes` and `""` do not. -/
theorem C10_prompt_requires_exact_y (env : Env) (v : String)
    (msg branch : Option String) (skipPush : Bool)
    (files : List (String × String)) (out : String) (r1 r2 r3 r4 : PatchResult)
    (hs : env.gitExec ["git", "status", "--porcelain"] = .ok out)
    (hclean : pyStrip out = "")
    (h1 : update_cargo_toml (lookupFile files "Cargo.toml") v = .ok r1)
    (hf1 : r1.ret = false)
    (h2 : update_tauri_conf (lookupFile files "tauri.conf.json") v = .ok r2)
    (hf2 : r2.ret = false)
    (h3 : update_package_json (lookupFile files "package.json") v = .ok r3)
    (hf3 : r3.ret = false)
    (h4 : update_pyproject_toml (lookupFile files "pyproject.toml") v = .ok r4)
    (hf4 : r4.ret = false) :
    (pyLower env.stdin = "y" →
      release env v msg branch skipPush ⟨files, []⟩ =
        releaseSteps34 env v msg branch skipPush
          ⟨files, preTrace v ++ .print (uvfStartMsg v) ::
            ((r1.output ++ r2.output ++ r3.output ++ r4.output).map .print ++
             [.print noFilesWarn, .print promptMsg, .readInput])⟩) ∧
    (pyLower env.stdin ≠ "y" →
      release env v msg branch skipPush ⟨files, []⟩ =
        (.ok (), ⟨files, preTrace v ++ .print (uvfStartMsg v) ::
          ((r1.output ++ r2.output ++ r3.output ++ r4.output).map .print ++
           [.print noFilesWarn, .print promptMsg, .readInput, .print cancelMsg])⟩)) ∧
    pyLower "Y" = "y" ∧ pyLower "yes" ≠ "y" ∧ pyLower "" ≠ "y" := by
  rw [write_none_of_ret_false r1 (cargo_ret_eq_write _ _ _ h1) hf1] at h1
  rw [write_none_of_ret_false r2 (tauri_ret_eq_write _ _ _ h2) hf2] at h2
  rw [write_none_of_ret_false r3 (package_ret_eq_write _ _ _ h3) hf3] at h3
  rw [write_none_of_ret_false r4 (pyproject_ret_eq_write _ _ _ h4) hf4] at h4
  have huvf := uvf_all_false v files (preTrace v)
    r1.output r2.output r3.output r4.output h1 h2 h3 h4
  have hb : ((pyStrip out).length == 0) = true := by rw [hclean]; rfl
  refine ⟨?_, ?_, by decide, by decide, by decide⟩
  · intro hy
    simp only [preTrace] at huvf
    simp only [release, M.bind, printM, check_git_status, run_command, M.pure,
      hs, hb, Bool.not_true, Bool.false_eq_true, if_false, List.nil_append,
      List.cons_append, List.append_nil]
    rw [huvf]
    simp [readInputM, hy, M.bind, printM, preTrace, List.map_append]
  · intro hn
    simp only [preTrace] at huvf
    simp only [release, M.bind, printM, check_git_status, run_command, M.pure,
      hs, hb, Bool.not_true, Bool.false_eq_true, if_false, List.nil_append,
      List.cons_append, List.append_nil]
    rw [huvf]
    simp [readInputM, hn, M.bind, printM, preTrace, List.map_append]

/-- Witness for C10: with answer `Y` (lowercased to `y`) and no manifest
files, the workflow proceeds into the commit step. -/
theorem C10_prompt_requires_exact_y_witness :
    release envYes "1.0.0" none none false ⟨[], []⟩ =
      releaseSteps34 envYes "1.0.0" none none false
        ⟨[], preTrace "1.0.0" ++ .print (uvfStartMsg "1.0.0") ::
          ((([] : List String) ++ [] ++ [] ++ []).map .print ++
           [.print noFilesWarn, .print promptMsg, .readInput])⟩ :=
  (C10_prompt_requires_exact_y envYes "1.0.0" none none false [] ""
    ⟨none, [], false⟩ ⟨none, [], false⟩ ⟨none, [], false⟩ ⟨none, [], false⟩
    rfl rfl rfl rfl rfl rfl rfl rfl rfl rfl).1 (by decide)

/-! ## Claim C3: the patcher contract -/

/-- C3: every one of the four manifest patchers, on a path that does not
exist (`content = none`), returns false with no exception, no write, and no
output; and whenever a patcher returns a result, that result is `true`
exactly when the file existed and the patcher wrote it back. -/
theorem C3_patcher_true_iff_modified (v : String) :
    update_cargo_toml none v = .ok ⟨none, [], false⟩ ∧
    update_tauri_conf none v = .ok ⟨none, [], false⟩ ∧
    update_package_json none v = .ok ⟨none, [], false⟩ ∧
    update_pyproject_toml none v = .ok ⟨none, [], false⟩ ∧
    (∀ (c : Option String) (r : PatchResult), update_cargo_toml c v = .ok r →
      (r.ret = true ↔ (c ≠ none ∧ r.write ≠ none))) ∧
    (∀ (c : Option String) (r : PatchResult), update_tauri_conf c v = .ok r →
      (r.ret = true ↔ (c ≠ none ∧ r.write ≠ none))) ∧
    (∀ (c : Option String) (r : PatchResult), update_package_json c v = .ok r →
      (r.ret = true ↔ (c ≠ none ∧ r.write ≠ none))) ∧
    (∀ (c : Option String) (r : PatchResult), update_pyproject_toml c v = .ok r →
      (r.ret = true ↔ (c ≠ none ∧ r.write ≠ none))) := by
  have key : ∀ (pf : Option String → String → Except PyErr PatchResult),
      (∀ (c : Option String) (r : PatchResult), pf c v = .ok r → r.ret = r.write.isSome) →
      pf none v = .ok ⟨none, [], false⟩ →
      ∀ (c : Option String) (r : PatchResult), pf c v = .ok r →
        (r.ret = true ↔ (c ≠ none ∧ r.write ≠ none)) := by
    intro pf hiff hnone c r h
    have hr := hiff c r h
    cases c with
    | none =>
      rw [hnone] at h
      cases h
      simp
    | some text =>
      cases hw : r.write with
      | none => rw [hw] at hr; simp [hr, hw]
      | some w => rw [hw] at hr; simp [hr, hw]
  exact ⟨rfl, rfl, rfl, rfl,
    key update_cargo_toml (fun c r => cargo_ret_eq_write c v r) rfl,
    key update_tauri_conf (fun c r => tauri_ret_eq_write c v r) rfl,
    key update_package_json (fun c r => package_ret_eq_write c v r) rfl,
    key update_pyproject_toml (fun c r => pyproject_ret_eq_write c v r) rfl⟩

/-- Witness for C3: the cargo patcher on a concrete existing manifest — the
returned `true` matches the performed write. -/
theorem C3_patcher_true_iff_modified_witness :
    ((⟨some "[package]\nversion = \"0.2.0\"\n",
        [updMsg "Cargo.toml" "0.2.0"], true⟩ : PatchResult).ret = true ↔
      ((some "[package]\nversion = \"0.1.0\"\n" : Option String) ≠ none ∧
        (⟨some "[package]\nversion = \"0.2.0\"\n",
          [updMsg "Cargo.toml" "0.2.0"], true⟩ : PatchResult).write ≠ none)) :=
  (C3_patcher_true_iff_modified "0.2.0").2.2.2.2.1
    (some "[package]\nversion = \"0.1.0\"\n")
    ⟨some "[package]\nversion = \"0.2.0\"\n", [updMsg "Cargo.toml" "0.2.0"], true⟩
    rfl

/-! ## Claim C4: malformed JSON is caught, reported, and isolated -/

/-- C4: on an existing manifest whose content fails to parse as JSON,
`_update_tauri_conf` and `_update_package_json` each catch the decode error,
print the per-file parse-failure report, write nothing, and return false;
and the orchestrator run over a project containing (only) such a bad
manifest completes normally with zero updates — the bad file does not abort
the release.  The parse-error frontier matches CPython's `json.load`: the
invalid number tokens `1.2.3` and `01` are decode errors (handled
gracefully), while `NaN` parses to a float, on which both patchers instead
raise the uncaught `TypeError` (that run is aborted — but not by a parse
error). -/
theorem C4_parse_error_isolated (text m v : String) (tr : List Event)
    (hp : parseJson text = .error (.jsonDecode m)) :
    update_tauri_conf (some text) v =
      .ok ⟨none, [parseFailMsg "tauri.conf.json" m], false⟩ ∧
    update_package_json (some text) v =
      .ok ⟨none, [parseFailMsg "package.json" m], false⟩ ∧
    update_version_files v ⟨[("tauri.conf.json", text)], tr⟩ =
      (.ok 0, ⟨[("tauri.conf.json", text)], tr ++
        [.print (uvfStartMsg v), .print (parseFailMsg "tauri.conf.json" m),
         .print noFilesWarn]⟩) ∧
    parseJson "1.2.3" = .error (.jsonDecode "Extra data") ∧
    parseJson "01" = .error (.jsonDecode "Extra data") ∧
    parseJson "NaN" = .ok (.num "NaN") ∧
    update_tauri_conf (some "NaN") v =
      .error (.typeError "argument of type is not iterable") ∧
    update_package_json (some "NaN") v =
      .error (.typeError "argument of type is not iterable") := by
  have ht : update_tauri_conf (some text) v =
      .ok ⟨none, [parseFailMsg "tauri.conf.json" m], false⟩ := by
    simp [update_tauri_conf, hp]
  have hpk : update_package_json (some text) v =
      .ok ⟨none, [parseFailMsg "package.json" m], false⟩ := by
    simp [update_package_json, hp]
  refine ⟨ht, hpk, ?_, rfl, rfl, rfl, rfl, rfl⟩
  have huvf := uvf_all_false v [("tauri.conf.json", text)] tr
    [] [parseFailMsg "tauri.conf.json" m] [] [] rfl ht rfl rfl
  simpa using huvf

/-- Witness for C4 on a concrete malformed manifest. -/
theorem C4_parse_error_isolated_witness :
    update_tauri_conf (some "not json") "1.0.0" =
      .ok ⟨none, [parseFailMsg "tauri.conf.json" "Expecting value"], false⟩ :=
  (C4_parse_error_isolated "not json" "Expecting value" "1.0.0" [] rfl).1

/-! ## Claim C5: the `[package]` version substitution

The regex match is pinned down for contents of the shape
`pre ++ "[package]" ++ mid ++ "version" ++ w1 ++ "=" ++ w2 ++ quote ++ old ++
quote ++ suf`, under side conditions that make this decomposition the unique
match of the pattern (no `[` before or after the section so there is exactly
one header occurrence, no `v` in the gap so no earlier `version` key,
whitespace runs around `=`, no quote inside the value). -/

theorem toList_asString (l : List Char) : (l.asString).toList = l := rfl

theorem asString_injective (a b : List Char) (h : a.asString = b.asString) :
    a = b := by
  have h2 := congrArg String.toList h
  rwa [toList_asString, toList_asString] at h2

/-- The version field text: `version` ++ w1 ++ `=` ++ w2 ++ `"` ++ val ++ `"`
followed by the rest of the file. -/
def verField (w1 w2 val suf : List Char) : List Char :=
  'v' :: 'e' :: 'r' :: 's' :: 'i' :: 'o' :: 'n' ::
    (w1 ++ ('=' :: (w2 ++ ('"' :: (val ++ ('"' :: suf))))))

/-- The consumed group-1 tail of a match: `version` ++ w1 ++ `=` ++ w2 ++ `"`. -/
def verCons (w1 w2 : List Char) : List Char :=
  'v' :: 'e' :: 'r' :: 's' :: 'i' :: 'o' :: 'n' :: (w1 ++ ('=' :: (w2 ++ ['"'])))

/-- A `[package]` section followed (after `mid`) by its version field. -/
def pkgBlock (mid w1 w2 val suf : List Char) : List Char :=
  '[' :: 'p' :: 'a' :: 'c' :: 'k' :: 'a' :: 'g' :: 'e' :: ']' ::
    (mid ++ verField w1 w2 val suf)

theorem takeWhile_all_cons (p : Char → Bool) (w : List Char) (x : Char)
    (t : List Char) (hw : ∀ c ∈ w, p c = true) (hx : p x = false) :
    (w ++ (x :: t)).takeWhile p = w ∧ (w ++ (x :: t)).dropWhile p = x :: t := by
  induction w with
  | nil => simp [List.takeWhile_cons, List.dropWhile_cons, hx]
  | cons c cs ih =>
    have hc := hw c (List.mem_cons_self c cs)
    have ih2 := ih fun d hd => hw d (List.mem_cons_of_mem c hd)
    simp [List.takeWhile_cons, List.dropWhile_cons, hc, ih2.1, ih2.2]

theorem matchVQ_at_field (w1 w2 old suf : List Char)
    (hw1 : ∀ c ∈ w1, isPySpace c = true) (hw2 : ∀ c ∈ w2, isPySpace c = true) :
    matchVQ (verField w1 w2 old suf) =
      some ⟨verCons w1 w2, old ++ ('"' :: suf)⟩ := by
  have h1 := takeWhile_all_cons isPySpace w1 '='
    (w2 ++ ('"' :: (old ++ ('"' :: suf)))) hw1 (by decide)
  have h2 := takeWhile_all_cons isPySpace w2 '"' (old ++ ('"' :: suf)) hw2 (by decide)
  simp [matchVQ, verField, verCons, verKw, dropPrefixL, h1.1, h1.2, h2.1, h2.2]

/-- Decidable match-uniqueness condition for the gap between the section
header and its version field: at no position inside `mid` does the
`version\s*=\s*"` pattern match (scanning the remaining text `rest`).  This
is exactly the condition under which the engine's first match after the
header is the intended field; ordinary manifest text between the header and
the version key (package names, author lists — including ones containing the
letter `v`) satisfies it. -/
def gapOk : List Char → List Char → Bool
  | [], _ => true
  | c :: cs, rest => (matchVQ (c :: (cs ++ rest))).isNone && gapOk cs rest

/-- Decidable match-uniqueness condition for the text before the section
header: at no position inside `pre` does the whole pattern match — either
`[package]` does not occur there, or no completed `version... "..."` field
follows it.  Comments and earlier sections satisfy it. -/
def preOk : List Char → List Char → Bool
  | [], _ => true
  | c :: cs, rest =>
    (match dropPrefixL pkgHdr (c :: (cs ++ rest)) with
     | none => true
     | some after => (findVQ after).isNone) && preOk cs rest

theorem findVQ_append_gap (mid rest : List Char) (h : gapOk mid rest = true) :
    findVQ (mid ++ rest) =
      (findVQ rest).map fun x => { x with gap := mid ++ x.gap } := by
  induction mid with
  | nil =>
    cases hfm : findVQ rest <;> simp [hfm]
  | cons c cs ih =>
    simp only [gapOk, Bool.and_eq_true, Option.isNone_iff_eq_none] at h
    have ih2 := ih h.2
    rw [List.cons_append]
    simp only [findVQ, h.1, ih2]
    cases hfm : findVQ rest <;> simp [hfm]

theorem findVQ_at_field (w1 w2 old suf : List Char)
    (hw1 : ∀ c ∈ w1, isPySpace c = true) (hw2 : ∀ c ∈ w2, isPySpace c = true)
    (hold : ∀ c ∈ old, c ≠ '"') :
    findVQ (verField w1 w2 old suf) = some ⟨[], verCons w1 w2, old, suf⟩ := by
  have hm := matchVQ_at_field w1 w2 old suf hw1 hw2
  have hq := takeWhile_all_cons (fun d => !(d = '"')) old '"' suf
    (fun c hc => by simp [hold c hc]) (by decide)
  simp only [verField] at hm ⊢
  simp only [findVQ, hm]
  simp [hq.1, hq.2]

theorem findMatch_append_pre (pre rest : List Char) (h : preOk pre rest = true) :
    findMatch pkgHdr (pre ++ rest) =
      (findMatch pkgHdr rest).map fun x => { x with pre := pre ++ x.pre } := by
  induction pre with
  | nil =>
    cases hfm : findMatch pkgHdr rest <;> simp [hfm]
  | cons c cs ih =>
    simp only [preOk, Bool.and_eq_true] at h
    obtain ⟨h1, h2⟩ := h
    have ih2 := ih h2
    rw [List.cons_append]
    cases hd : dropPrefixL pkgHdr (c :: (cs ++ rest)) with
    | none =>
      simp only [findMatch, hd, ih2]
      cases hfm : findMatch pkgHdr rest <;> simp [hfm]
    | some after =>
      rw [hd] at h1
      simp only [Option.isNone_iff_eq_none] at h1
      simp only [findMatch, hd, h1, ih2]
      cases hfm : findMatch pkgHdr rest <;> simp [hfm]

theorem findMatch_pkgBlock (mid w1 w2 old suf : List Char)
    (hmid : gapOk mid (verField w1 w2 old suf) = true)
    (hw1 : ∀ c ∈ w1, isPySpace c = true) (hw2 : ∀ c ∈ w2, isPySpace c = true)
    (hold : ∀ c ∈ old, c ≠ '"') :
    findMatch pkgHdr (pkgBlock mid w1 w2 old suf) =
      some ⟨[], pkgHdr ++ (mid ++ verCons w1 w2), old, suf⟩ := by
  have hvq := findVQ_append_gap mid (verField w1 w2 old suf) hmid
  rw [findVQ_at_field w1 w2 old suf hw1 hw2 hold] at hvq
  simp only [Option.map_some'] at hvq
  simp only [pkgBlock, findMatch, pkgHdr, dropPrefixL]
  simp only [reduceIte, hvq]
  simp [pkgHdr, List.append_assoc]

theorem reSubAll_no_match (hdr v : List Char) (fuel : Nat) (s : List Char)
    (h : findMatch hdr s = none) : reSubAll hdr v fuel s = s := by
  cases fuel <;> simp [reSubAll, h]

/-- The core substitution result on character lists: the unique match's
quoted value is replaced and nothing else changes. -/
theorem cargoSub_core (pre mid w1 w2 old suf v : List Char)
    (hpre : preOk pre (pkgBlock mid w1 w2 old suf) = true)
    (hmid : gapOk mid (verField w1 w2 old suf) = true)
    (hw1 : ∀ c ∈ w1, isPySpace c = true) (hw2 : ∀ c ∈ w2, isPySpace c = true)
    (hold : ∀ c ∈ old, c ≠ '"')
    (hsuf : findMatch pkgHdr suf = none) (fuel : Nat) :
    reSubAll pkgHdr v (fuel + 1) (pre ++ pkgBlock mid w1 w2 old suf) =
      pre ++ pkgBlock mid w1 w2 v suf := by
  have hfm := findMatch_append_pre pre (pkgBlock mid w1 w2 old suf) hpre
  rw [findMatch_pkgBlock mid w1 w2 old suf hmid hw1 hw2 hold] at hfm
  simp only [Option.map_some'] at hfm
  simp only [reSubAll, hfm]
  rw [reSubAll_no_match pkgHdr v fuel suf hsuf]
  simp [pkgBlock, verField, verCons, pkgHdr, List.append_assoc]

/-- C5: for a Cargo.toml content containing a `[package]` section followed
by a `version = "..."` field (decomposition
`pre ++ "[package]" ++ mid ++ "version" ++ w1 ++ "=" ++ w2 ++ quote ++ old ++
quote ++ suf`, with decidable side conditions saying exactly that this field
is the pattern's unique match: no completed match starts in `pre`, no
`version\s*=\s*"` occurrence inside the gap `mid`, no quote inside the
value, and no further match in `suf` — conditions satisfied by ordinary
manifests with comments, other sections such as `[dependencies]`, and
`v`-containing values), the substitution replaces exactly the quoted value
`old` by the new version and leaves every other byte unchanged; the patcher
writes that result and returns true; and patching a second time with the
same version is a no-op — the substitution returns the content unchanged and
the patcher writes nothing and returns false. -/
theorem C5_cargo_substitution_idempotent (pre mid w1 w2 old suf v : List Char)
    (hw1 : ∀ c ∈ w1, isPySpace c = true) (hw2 : ∀ c ∈ w2, isPySpace c = true)
    (hold : ∀ c ∈ old, c ≠ '"') (hv : ∀ c ∈ v, c ≠ '"')
    (hpre1 : preOk pre (pkgBlock mid w1 w2 old suf) = true)
    (hmid1 : gapOk mid (verField w1 w2 old suf) = true)
    (hpre2 : preOk pre (pkgBlock mid w1 w2 v suf) = true)
    (hmid2 : gapOk mid (verField w1 w2 v suf) = true)
    (hsuf : findMatch pkgHdr suf = none) (hne : old ≠ v) :
    hdrSub pkgHdr (pre ++ pkgBlock mid w1 w2 old suf).asString v.asString =
      (pre ++ pkgBlock mid w1 w2 v suf).asString ∧
    update_cargo_toml (some (pre ++ pkgBlock mid w1 w2 old suf).asString) v.asString =
      .ok ⟨some (pre ++ pkgBlock mid w1 w2 v suf).asString,
        [updMsg "Cargo.toml" v.asString], true⟩ ∧
    hdrSub pkgHdr (pre ++ pkgBlock mid w1 w2 v suf).asString v.asString =
      (pre ++ pkgBlock mid w1 w2 v suf).asString ∧
    update_cargo_toml (some (pre ++ pkgBlock mid w1 w2 v suf).asString) v.asString =
      .ok ⟨none, [], false⟩ := by
  have hpos1 : 0 < (pre ++ pkgBlock mid w1 w2 old suf).length := by
    simp [pkgBlock]
  have hpos2 : 0 < (pre ++ pkgBlock mid w1 w2 v suf).length := by
    simp [pkgBlock]
  have hsub1 : hdrSub pkgHdr (pre ++ pkgBlock mid w1 w2 old suf).asString v.asString =
      (pre ++ pkgBlock mid w1 w2 v suf).asString := by
    simp only [hdrSub, toList_asString]
    rw [show (pre ++ pkgBlock mid w1 w2 old suf).length =
      ((pre ++ pkgBlock mid w1 w2 old suf).length - 1) + 1 by omega]
    rw [cargoSub_core pre mid w1 w2 old suf v hpre1 hmid1 hw1 hw2 hold hsuf _]
  have hsub2 : hdrSub pkgHdr (pre ++ pkgBlock mid w1 w2 v suf).asString v.asString =
      (pre ++ pkgBlock mid w1 w2 v suf).asString := by
    simp only [hdrSub, toList_asString]
    rw [show (pre ++ pkgBlock mid w1 w2 v suf).length =
      ((pre ++ pkgBlock mid w1 w2 v suf).length - 1) + 1 by omega]
    rw [cargoSub_core pre mid w1 w2 v suf v hpre2 hmid2 hw1 hw2 hv hsuf _]
  have hne2 : (pre ++ pkgBlock mid w1 w2 v suf).asString ≠
      (pre ++ pkgBlock mid w1 w2 old suf).asString := by
    intro h
    have hl := asString_injective _ _ h
    have h2 := List.append_cancel_left hl
    simp only [pkgBlock, List.cons.injEq, true_and] at h2
    have h3 := List.append_cancel_left h2
    simp only [verField, List.cons.injEq, true_and] at h3
    have h4 := List.append_cancel_left h3
    simp only [List.cons.injEq, true_and] at h4
    have h5 := List.append_cancel_left h4
    simp only [List.cons.injEq, true_and] at h5
    exact hne (List.append_cancel_right h5).symm
  refine ⟨hsub1, ?_, hsub2, ?_⟩
  · simp only [update_cargo_toml, hsub1]
    rw [if_pos hne2]
  · simp only [update_cargo_toml, hsub2]
    rw [if_neg fun hcon => hcon rfl]

/-- Witness for C5 at a realistic manifest: a comment line before the
section, a name value containing `v` between the header and the version key,
and a `[dependencies]` section (with its own quoted value) after it —
`# demo crate\n[package]\nname = "vdemo"\nversion = "0.1.0"\n\n[dependencies]\nserde = "1.0"\n`
patched to `0.2.0`. -/
theorem C5_cargo_substitution_idempotent_witness :
    hdrSub pkgHdr
        ("# demo crate\n".toList ++ pkgBlock "\nname = \"vdemo\"\n".toList
          [' '] [' '] "0.1.0".toList "\n\n[dependencies]\nserde = \"1.0\"\n".toList).asString
        ("0.2.0".toList).asString =
      ("# demo crate\n".toList ++ pkgBlock "\nname = \"vdemo\"\n".toList
        [' '] [' '] "0.2.0".toList "\n\n[dependencies]\nserde = \"1.0\"\n".toList).asString ∧
    update_cargo_toml
        (some ("# demo crate\n".toList ++ pkgBlock "\nname = \"vdemo\"\n".toList
          [' '] [' '] "0.1.0".toList "\n\n[dependencies]\nserde = \"1.0\"\n".toList).asString)
        ("0.2.0".toList).asString =
      .ok ⟨some ("# demo crate\n".toList ++ pkgBlock "\nname = \"vdemo\"\n".toList
          [' '] [' '] "0.2.0".toList "\n\n[dependencies]\nserde = \"1.0\"\n".toList).asString,
        [updMsg "Cargo.toml" ("0.2.0".toList).asString], true⟩ ∧
    hdrSub pkgHdr
        ("# demo crate\n".toList ++ pkgBlock "\nname = \"vdemo\"\n".toList
          [' '] [' '] "0.2.0".toList "\n\n[dependencies]\nserde = \"1.0\"\n".toList).asString
        ("0.2.0".toList).asString =
      ("# demo crate\n".toList ++ pkgBlock "\nname = \"vdemo\"\n".toList
        [' '] [' '] "0.2.0".toList "\n\n[dependencies]\nserde = \"1.0\"\n".toList).asString ∧
    update_cargo_toml
        (some ("# demo crate\n".toList ++ pkgBlock "\nname = \"vdemo\"\n".toList
          [' '] [' '] "0.2.0".toList "\n\n[dependencies]\nserde = \"1.0\"\n".toList).asString)
        ("0.2.0".toList).asString =
      .ok ⟨none, [], false⟩ :=
  C5_cargo_substitution_idempotent "# demo crate\n".toList "\nname = \"vdemo\"\n".toList
    [' '] [' '] "0.1.0".toList "\n\n[dependencies]\nserde = \"1.0\"\n".toList "0.2.0".toList
    (by decide) (by decide) (by decide) (by decide) (by decide) (by decide)
    (by decide) (by decide) (by decide) (by decide)

end GitRelease
